import Mathlib

/-!
# Stellar gateway: translation helpers, interceptor chains and topology records

A shallow embedding of

* `gateway/dataimpl/server_v1/helpers.go` (value converters between the wire
  types and the backend driver types),
* `gateway/system/system.go` (`NewSystem`: recovery handler and the two
  interceptor chains),
* `common/cbtopology/topology.go` (topology record types, with the validating
  constructors of the design, which the sources do not hold, written from the
  design),

followed by the properties established about them.

Conventions. Go machine integers are `Nat` (unsigned) or `Int` (signed) and every
conversion or arithmetic step that can wrap is written with an explicit
reduction (`wrapU64`, `wrapI64`, ...).  A Go pointer is an `Option`; `none` is
the nil pointer.  A Go call that may panic returns `Except GoPanic _`.
-/

namespace StellarGateway

/-! ## Machine integers -/

/-- Conversion to `uint32`: reduction modulo `2^32`. -/
def wrapU32 (n : Nat) : Nat := n % 4294967296

/-- Conversion to `uint64`: reduction modulo `2^64`. -/
def wrapU64 (n : Nat) : Nat := n % 18446744073709551616

/-- Conversion to `int32`: two's complement reduction into `[-2^31, 2^31)`. -/
def wrapI32 (x : Int) : Int := (x + 2147483648) % 4294967296 - 2147483648

/-- Conversion to `int64`: two's complement reduction into `[-2^63, 2^63)`. -/
def wrapI64 (x : Int) : Int :=
  (x + 9223372036854775808) % 18446744073709551616 - 9223372036854775808

/-- Range of a `uint64`. -/
def IsU64 (n : Nat) : Prop := n < 18446744073709551616

/-- Range of an `int64`. -/
def IsI64 (x : Int) : Prop := -9223372036854775808 ≤ x ∧ x < 9223372036854775808

/-- Range of an `int32`. -/
def IsI32 (x : Int) : Prop := -2147483648 ≤ x ∧ x < 2147483648

instance (n : Nat) : Decidable (IsU64 n) := by unfold IsU64; infer_instance
instance (x : Int) : Decidable (IsI64 x) := by unfold IsI64; infer_instance
instance (x : Int) : Decidable (IsI32 x) := by unfold IsI32; infer_instance

/-- Run-time panics a call of the embedded code can raise. -/
inductive GoPanic where
  | nilDereference
  | divideByZero
  deriving DecidableEq, Repr

/-! ## gRPC status -/

/-- The gRPC status codes (`google.golang.org/grpc/codes`). -/
inductive Code where
  | OK | Canceled | Unknown | InvalidArgument | DeadlineExceeded | NotFound
  | AlreadyExists | PermissionDenied | ResourceExhausted | FailedPrecondition
  | Aborted | OutOfRange | Unimplemented | Internal | Unavailable | DataLoss
  | Unauthenticated
  deriving DecidableEq, Repr

/-- A gRPC status: a code and a message (`status.New(code, msg)`). -/
structure Status where
  code : Code
  message : String
  deriving DecidableEq, Repr

/-! ## helpers.go: version tokens -/

/-- Go: `func casFromGocb(cas gocb.Cas) uint64 { return uint64(cas) }`.
`gocb.Cas` is a named `uint64`; the conversion is written as a reduction. -/
def casFromGocb (cas : Nat) : Nat := wrapU64 cas

/-- Go: `func casToGocb(cas *uint64) gocb.Cas { return gocb.Cas(*cas) }`.
The dereference of a nil pointer panics. -/
def casToGocb (cas : Option Nat) : Except GoPanic Nat :=
  match cas with
  | none => .error .nilDereference
  | some v => .ok (wrapU64 v)

/-! ## helpers.go: durability levels -/

/-- The three named constants of the wire enum `kv_v1.DurabilityLevel` (an
`int32` enum generated from the protocol definition, which is not part of the
sources at hand); their numeric values are parameters. -/
structure WireDurabilityLevels where
  MAJORITY : Int
  MAJORITY_AND_PERSIST_TO_ACTIVE : Int
  PERSIST_TO_MAJORITY : Int
  deriving DecidableEq, Repr

/-- The three named constants of the driver enum `gocb.DurabilityLevel` used by
the mapping (the driver is an external library); their numeric values are
parameters. -/
structure GocbDurabilityLevels where
  DurabilityLevelMajority : Nat
  DurabilityLevelMajorityAndPersistOnMaster : Nat
  DurabilityLevelPersistToMajority : Nat
  deriving DecidableEq, Repr

/-- The case constants of a Go `switch` are pairwise different (the compiler
rejects duplicate constant cases). -/
def WireDurabilityLevels.Distinct (W : WireDurabilityLevels) : Prop :=
  W.MAJORITY ≠ W.MAJORITY_AND_PERSIST_TO_ACTIVE ∧
  W.MAJORITY ≠ W.PERSIST_TO_MAJORITY ∧
  W.MAJORITY_AND_PERSIST_TO_ACTIVE ≠ W.PERSIST_TO_MAJORITY

instance (W : WireDurabilityLevels) : Decidable W.Distinct := by
  unfold WireDurabilityLevels.Distinct; infer_instance

/-- Go: `durabilityLevelToGocb`.  The `switch` tries its cases in order; when no
case matches, control reaches the final `return` with
`status.New(codes.InvalidArgument, "invalid durability level specified")`. -/
def durabilityLevelToGocb (W : WireDurabilityLevels) (G : GocbDurabilityLevels)
    (dl : Int) : Nat × Option Status :=
  if dl = W.MAJORITY then
    (G.DurabilityLevelMajority, none)
  else if dl = W.MAJORITY_AND_PERSIST_TO_ACTIVE then
    (G.DurabilityLevelMajorityAndPersistOnMaster, none)
  else if dl = W.PERSIST_TO_MAJORITY then
    (G.DurabilityLevelPersistToMajority, none)
  else
    (0, some ⟨Code.InvalidArgument, "invalid durability level specified"⟩)

/-! ## The Go `time` package (standard library), as far as the helpers use it

`time.Time` is `struct { wall uint64; ext int64; loc *Location }`.  When the top
bit of `wall` is set the value carries a monotonic clock reading: `wall` then
holds a 33-bit count of seconds since 1885 and `ext` the monotonic reading;
otherwise `ext` is the full count of seconds since January 1, year 1.  The low
30 bits of `wall` are the nanoseconds. -/

/-- A `*time.Location` target: the two locations of the package and any other
loaded zone. -/
inductive Location where
  | utcLoc
  | localLoc
  | zone (name : String)
  deriving DecidableEq, Repr

/-- Go: `time.Time`. -/
structure Time where
  wall : Nat
  ext : Int
  loc : Option Location
  deriving DecidableEq, Repr

/-- Go: `hasMonotonic = 1 << 63`. -/
def hasMonotonic : Nat := 2 ^ 63

/-- Go: `nsecMask = 1<<30 - 1`. -/
def nsecMask : Nat := 2 ^ 30 - 1

/-- Go: `nsecShift = 30`. -/
def nsecShift : Nat := 30

/-- Go: `secondsPerDay = 24 * 60 * 60`. -/
def secondsPerDay : Int := 24 * 60 * 60

/-- Go: `unixToInternal`, the seconds from January 1, year 1 to the Unix epoch. -/
def unixToInternal : Int :=
  (1969 * 365 + 1969 / 4 - 1969 / 100 + 1969 / 400) * secondsPerDay

/-- Go: `internalToUnix = -unixToInternal`. -/
def internalToUnix : Int := -unixToInternal

/-- Go: `wallToInternal`, the seconds from January 1, year 1 to January 1, 1885. -/
def wallToInternal : Int :=
  (1884 * 365 + 1884 / 4 - 1884 / 100 + 1884 / 400) * secondsPerDay

/-- Conversion of a signed value to `uint64`. -/
def toU64 (x : Int) : Nat := (x % 18446744073709551616).toNat

/-- Go: `func (t *Time) nsec() int32 { return int32(t.wall & nsecMask) }`. -/
def Time.nsec (t : Time) : Int := wrapI32 (Int.ofNat (t.wall &&& nsecMask))

/-- Go: `func (t *Time) sec() int64`: seconds since January 1, year 1. -/
def Time.sec (t : Time) : Int :=
  if t.wall &&& hasMonotonic ≠ 0 then
    wrapI64 (wallToInternal
      + wrapI64 (Int.ofNat (wrapU64 (t.wall <<< 1) >>> (nsecShift + 1))))
  else
    t.ext

/-- Go: `func (t *Time) unixSec() int64 { return t.sec() + internalToUnix }`. -/
def Time.unixSec (t : Time) : Int := wrapI64 (t.sec + internalToUnix)

/-- Go: `func (t Time) Unix() int64 { return t.unixSec() }`. -/
def Time.Unix (t : Time) : Int := t.unixSec

/-- Go: `func (t Time) Nanosecond() int { return int(t.nsec()) }`. -/
def Time.Nanosecond (t : Time) : Int := t.nsec

/-- Go: `func (t Time) IsZero() bool { return t.sec() == 0 && t.nsec() == 0 }`. -/
def Time.IsZero (t : Time) : Bool := t.sec == 0 && t.nsec == 0

/-- Go: `func (t Time) Equal(u Time) bool`. -/
def Time.Equal (t u : Time) : Bool :=
  if t.wall &&& u.wall &&& hasMonotonic ≠ 0 then
    t.ext == u.ext
  else
    t.sec == u.sec && t.nsec == u.nsec

/-- Go: `func (t *Time) stripMono()`. -/
def Time.stripMono (t : Time) : Time :=
  if t.wall &&& hasMonotonic ≠ 0 then
    { t with ext := t.sec, wall := t.wall &&& nsecMask }
  else
    t

/-- Go: `func (t *Time) setLoc(loc *Location)`; a pointer to `utcLoc` is stored
as nil. -/
def Time.setLoc (t : Time) (loc : Option Location) : Time :=
  let loc1 := if loc = some Location.utcLoc then none else loc
  { t.stripMono with loc := loc1 }

/-- Go: `func (t Time) UTC() Time { t.setLoc(&utcLoc); return t }`. -/
def Time.UTC (t : Time) : Time := t.setLoc (some Location.utcLoc)

/-- Go: `func unixTime(sec int64, nsec int32) Time`
`{ return Time{uint64(nsec), sec + unixToInternal, Local} }`. -/
def unixTime (sec nsec : Int) : Time :=
  { wall := toU64 nsec, ext := wrapI64 (sec + unixToInternal),
    loc := some Location.localLoc }

/-- Go: `func Unix(sec int64, nsec int64) Time`.  Nanoseconds outside
`[0, 1e9)` are carried into the seconds; `/` is Go's truncating division. -/
def Unix (sec nsec : Int) : Time :=
  if nsec < 0 ∨ nsec ≥ 1000000000 then
    let n := Int.tdiv nsec 1000000000
    let sec1 := wrapI64 (sec + n)
    let nsec1 := wrapI64 (nsec - wrapI64 (n * 1000000000))
    if nsec1 < 0 then
      unixTime (wrapI64 (sec1 - 1)) (wrapI32 (wrapI64 (nsec1 + 1000000000)))
    else
      unixTime sec1 (wrapI32 nsec1)
  else
    unixTime sec (wrapI32 nsec)

/-- The representation invariant of `time.Time`: the fields are in the range of
their machine types and, as the type documents, the nanoseconds field is in
`[0, 999999999]`. -/
def Time.WF (t : Time) : Prop :=
  IsU64 t.wall ∧ IsI64 t.ext ∧ 0 ≤ t.nsec ∧ t.nsec ≤ 999999999

instance (t : Time) : Decidable t.WF := by unfold Time.WF; infer_instance

/-- The instant a time value denotes: seconds since January 1, year 1 UTC and
nanoseconds within that second.  The location plays no part. -/
def Time.instant (t : Time) : Int × Int := (t.sec, t.nsec)

/-- The zero instant, January 1, year 1, 00:00:00 UTC. -/
def zeroInstant : Int × Int := (0, 0)

/-- The Unix-epoch instant, January 1, 1970, 00:00:00 UTC. -/
def unixEpochInstant : Int × Int := (unixToInternal, 0)

/-! ## Well-known wire types: `timestamppb`, `durationpb` -/

/-- Go: `timestamppb.Timestamp` (`Seconds int64`, `Nanos int32`). -/
structure Timestamp where
  Seconds : Int
  Nanos : Int
  deriving DecidableEq, Repr

/-- Go: `func (x *Timestamp) GetSeconds() int64`; nil-safe, nil gives `0`. -/
def Timestamp.GetSeconds (x : Option Timestamp) : Int :=
  match x with
  | none => 0
  | some ts => ts.Seconds

/-- Go: `func (x *Timestamp) GetNanos() int32`; nil-safe, nil gives `0`. -/
def Timestamp.GetNanos (x : Option Timestamp) : Int :=
  match x with
  | none => 0
  | some ts => ts.Nanos

/-- Go: `timestamppb.New(t)`
`= &Timestamp{Seconds: int64(t.Unix()), Nanos: int32(t.Nanosecond())}`. -/
def Timestamp.New (t : Time) : Timestamp :=
  { Seconds := wrapI64 t.Unix, Nanos := wrapI32 t.Nanosecond }

/-- Go: `func (x *Timestamp) AsTime() time.Time`
`{ return time.Unix(int64(x.GetSeconds()), int64(x.GetNanos())).UTC() }`. -/
def Timestamp.AsTime (x : Option Timestamp) : Time :=
  (Unix (wrapI64 (Timestamp.GetSeconds x)) (wrapI64 (Timestamp.GetNanos x))).UTC

/-- The instant a wire timestamp denotes: its seconds counted from the Unix
epoch, expressed like `Time.instant` in seconds since year 1, and its nanos. -/
def Timestamp.instant (ts : Timestamp) : Int × Int :=
  (wrapI64 (ts.Seconds + unixToInternal), ts.Nanos)

/-! ## helpers.go: time values -/

/-- Go: `timeFromGo`.  Nil when `when` equals `time.Unix(0, 0)` or is the zero
time, else `timestamppb.New(when)`. -/
def timeFromGo (when : Time) : Option Timestamp :=
  if when.Equal (Unix 0 0) then
    none
  else if when.IsZero then
    none
  else
    some (Timestamp.New when)

/-- Go: `func timeToGo(ts *timestamppb.Timestamp) time.Time { return ts.AsTime() }`. -/
def timeToGo (ts : Option Timestamp) : Time := Timestamp.AsTime ts

/-! ## helpers.go: durations -/

/-- Go: `durationpb.Duration` (`Seconds int64`, `Nanos int32`). -/
structure DurationPb where
  Seconds : Int
  Nanos : Int
  deriving DecidableEq, Repr

/-- Go: `func (x *Duration) GetSeconds() int64`; nil-safe, nil gives `0`. -/
def DurationPb.GetSeconds (x : Option DurationPb) : Int :=
  match x with
  | none => 0
  | some d => d.Seconds

/-- Go: `func (x *Duration) GetNanos() int32`; nil-safe, nil gives `0`. -/
def DurationPb.GetNanos (x : Option DurationPb) : Int :=
  match x with
  | none => 0
  | some d => d.Nanos

/-- Go: `durationpb.New(d)`; a `time.Duration` is an `int64` count of
nanoseconds and `/` truncates. -/
def DurationPb.New (d : Int) : DurationPb :=
  let nanos := d
  let secs := Int.tdiv nanos 1000000000
  let nanos1 := wrapI64 (nanos - wrapI64 (secs * 1000000000))
  { Seconds := wrapI64 secs, Nanos := wrapI32 nanos1 }

/-- Go: `func (x *Duration) AsDuration() time.Duration`; a product or sum that
leaves the `int64` range saturates. -/
def DurationPb.AsDuration (x : Option DurationPb) : Int :=
  let secs := DurationPb.GetSeconds x
  let nanos := DurationPb.GetNanos x
  let d0 := wrapI64 (secs * 1000000000)
  let overflow0 : Bool := Int.tdiv d0 1000000000 != secs
  let d := wrapI64 (d0 + nanos)
  let overflow1 : Bool := overflow0 || (decide (secs < 0) && decide (nanos < 0) && decide (d > 0))
  let overflow2 : Bool := overflow1 || (decide (secs > 0) && decide (nanos > 0) && decide (d < 0))
  if overflow2 then
    if secs < 0 then -9223372036854775808
    else if secs > 0 then 9223372036854775807
    else d
  else
    d

/-- Go: `func durationFromGo(dura time.Duration) *durationpb.Duration`. -/
def durationFromGo (dura : Int) : Option DurationPb := some (DurationPb.New dura)

/-- Go: `func durationToGo(d *durationpb.Duration) time.Duration`. -/
def durationToGo (d : Option DurationPb) : Int := DurationPb.AsDuration d

/-! ## helpers.go: mutation receipts -/

/-- The core driver's receipt `gocbcore.MutationToken` (external library):
`VbID uint16`, `VbUUID VbUUID` and `SeqNo SeqNo`, the latter two named
`uint64` types. -/
structure GocbcoreMutationToken where
  VbID : Nat
  VbUUID : Nat
  SeqNo : Nat
  deriving DecidableEq, Repr

/-- The driver's receipt `gocb.MutationToken` (external library):
`struct { token gocbcore.MutationToken; bucketName string }`. -/
structure GocbMutationToken where
  token : GocbcoreMutationToken
  bucketName : String
  deriving DecidableEq, Repr

/-- Go: `func (mt MutationToken) BucketName() string`. -/
def GocbMutationToken.BucketName (mt : GocbMutationToken) : String := mt.bucketName

/-- Go: `func (mt MutationToken) PartitionID() uint64`
`{ return uint64(mt.token.VbID) }`. -/
def GocbMutationToken.PartitionID (mt : GocbMutationToken) : Nat := wrapU64 mt.token.VbID

/-- Go: `func (mt MutationToken) PartitionUUID() uint64`
`{ return uint64(mt.token.VbUUID) }`. -/
def GocbMutationToken.PartitionUUID (mt : GocbMutationToken) : Nat :=
  wrapU64 mt.token.VbUUID

/-- Go: `func (mt MutationToken) SequenceNumber() uint64`
`{ return uint64(mt.token.SeqNo) }`. -/
def GocbMutationToken.SequenceNumber (mt : GocbMutationToken) : Nat :=
  wrapU64 mt.token.SeqNo

/-- The fields of a receipt are in the range of their machine types: `VbID` a
`uint16`, `VbUUID` and `SeqNo` a `uint64`. -/
def GocbMutationToken.WF (t : GocbMutationToken) : Prop :=
  t.token.VbID < 65536 ∧ IsU64 t.token.VbUUID ∧ IsU64 t.token.SeqNo

instance (t : GocbMutationToken) : Decidable t.WF := by
  unfold GocbMutationToken.WF; infer_instance

/-- Go: `kv_v1.MutationToken` (`BucketName string`, `VbucketId uint32`,
`VbucketUuid uint64`, `SeqNo uint64`). -/
structure MutationToken where
  BucketName : String
  VbucketId : Nat
  VbucketUuid : Nat
  SeqNo : Nat
  deriving DecidableEq, Repr

/-- Go: `tokenFromGocb`.  The partition id goes through `uint32(...)`. -/
def tokenFromGocb (token : Option GocbMutationToken) : Option MutationToken :=
  match token with
  | none => none
  | some tok =>
    some { BucketName := tok.BucketName
           VbucketId := wrapU32 tok.PartitionID
           VbucketUuid := wrapU64 tok.PartitionUUID
           SeqNo := wrapU64 tok.SequenceNumber }

/-! ## helpers.go: one call of any converter but the durability mapping -/

/-- A call of one of the seven converters, with its argument. -/
inductive ConverterCall where
  | casFromGocb (cas : Nat)
  | casToGocb (cas : Option Nat)
  | timeFromGo (when : Time)
  | timeToGo (ts : Option Timestamp)
  | durationFromGo (dura : Int)
  | durationToGo (d : Option DurationPb)
  | tokenFromGocb (token : Option GocbMutationToken)
  deriving DecidableEq, Repr

/-- What a converter call returns. -/
inductive ConverterValue where
  | uint64 (v : Nat)
  | cas (v : Nat)
  | timestamp (ts : Option Timestamp)
  | time (t : Time)
  | durationPb (d : Option DurationPb)
  | duration (d : Int)
  | token (tok : Option MutationToken)
  deriving DecidableEq, Repr

/-! ### The converters step by step

Here every operation of the converters and of the library functions they call
that can panic is a separate step: a read through a pointer and an integer
division.  The remaining operations (conversions, additions, comparisons, bit
operations, shifts by constants, method calls on values) cannot panic and are
taken from the definitions above. -/

/-- Go: `*p`, a field read `p.f` or a value-receiver method call through the
pointer `p`; panics when `p` is nil. -/
def Exec.deref {α : Type} (p : Option α) : Except GoPanic α :=
  match p with
  | none => .error .nilDereference
  | some v => .ok v

/-- Go: the integer division `a / b`; panics when `b` is zero, else the
truncated quotient. -/
def Exec.quo (a b : Int) : Except GoPanic Int :=
  if b = 0 then .error .divideByZero else .ok (Int.tdiv a b)

/-- Go: `casFromGocb`, step by step. -/
def Exec.casFromGocb (cas : Nat) : Except GoPanic Nat :=
  pure (wrapU64 cas)

/-- Go: `casToGocb`, step by step: `*cas` is read without a nil test. -/
def Exec.casToGocb (cas : Option Nat) : Except GoPanic Nat := do
  let v ← Exec.deref cas
  pure (wrapU64 v)

/-- Go: `time.Unix`, step by step. -/
def Exec.Unix (sec nsec : Int) : Except GoPanic Time :=
  if nsec < 0 ∨ nsec ≥ 1000000000 then do
    let n ← Exec.quo nsec 1000000000
    let sec1 := wrapI64 (sec + n)
    let nsec1 := wrapI64 (nsec - wrapI64 (n * 1000000000))
    if nsec1 < 0 then
      pure (unixTime (wrapI64 (sec1 - 1)) (wrapI32 (wrapI64 (nsec1 + 1000000000))))
    else
      pure (unixTime sec1 (wrapI32 nsec1))
  else
    pure (unixTime sec (wrapI32 nsec))

/-- Go: `timeFromGo`, step by step; `when` is a value, so `Equal`, `IsZero` and
`timestamppb.New` read no pointer that could be nil. -/
def Exec.timeFromGo (when : Time) : Except GoPanic (Option Timestamp) := do
  let epoch ← Exec.Unix 0 0
  if when.Equal epoch then
    pure none
  else if when.IsZero then
    pure none
  else
    pure (some (Timestamp.New when))

/-- Go: the generated getter
`func (x *Timestamp) GetSeconds() int64 { if x != nil { return x.Seconds }; return 0 }`. -/
def Exec.timestampGetSeconds (x : Option Timestamp) : Except GoPanic Int :=
  if x ≠ none then do
    let v ← Exec.deref x
    pure v.Seconds
  else
    pure 0

/-- Go: the generated getter
`func (x *Timestamp) GetNanos() int32 { if x != nil { return x.Nanos }; return 0 }`. -/
def Exec.timestampGetNanos (x : Option Timestamp) : Except GoPanic Int :=
  if x ≠ none then do
    let v ← Exec.deref x
    pure v.Nanos
  else
    pure 0

/-- Go: `timeToGo`, that is `ts.AsTime()`, step by step: the receiver is only
passed on to the two getters. -/
def Exec.timeToGo (ts : Option Timestamp) : Except GoPanic Time := do
  let secs ← Exec.timestampGetSeconds ts
  let nanos ← Exec.timestampGetNanos ts
  let t ← Exec.Unix (wrapI64 secs) (wrapI64 nanos)
  pure t.UTC

/-- Go: `durationFromGo`, that is `durationpb.New(dura)`, step by step. -/
def Exec.durationFromGo (dura : Int) : Except GoPanic (Option DurationPb) := do
  let nanos := dura
  let secs ← Exec.quo nanos 1000000000
  let nanos1 := wrapI64 (nanos - wrapI64 (secs * 1000000000))
  pure (some { Seconds := wrapI64 secs, Nanos := wrapI32 nanos1 })

/-- Go: the generated getter
`func (x *Duration) GetSeconds() int64 { if x != nil { return x.Seconds }; return 0 }`. -/
def Exec.durationGetSeconds (x : Option DurationPb) : Except GoPanic Int :=
  if x ≠ none then do
    let v ← Exec.deref x
    pure v.Seconds
  else
    pure 0

/-- Go: the generated getter
`func (x *Duration) GetNanos() int32 { if x != nil { return x.Nanos }; return 0 }`. -/
def Exec.durationGetNanos (x : Option DurationPb) : Except GoPanic Int :=
  if x ≠ none then do
    let v ← Exec.deref x
    pure v.Nanos
  else
    pure 0

/-- Go: `durationToGo`, that is `d.AsDuration()`, step by step. -/
def Exec.durationToGo (x : Option DurationPb) : Except GoPanic Int := do
  let secs ← Exec.durationGetSeconds x
  let nanos ← Exec.durationGetNanos x
  let d0 := wrapI64 (secs * 1000000000)
  let q ← Exec.quo d0 1000000000
  let overflow0 : Bool := q != secs
  let d := wrapI64 (d0 + nanos)
  let overflow1 : Bool := overflow0 || (decide (secs < 0) && decide (nanos < 0) && decide (d > 0))
  let overflow2 : Bool := overflow1 || (decide (secs > 0) && decide (nanos > 0) && decide (d < 0))
  if overflow2 then
    if secs < 0 then pure (-9223372036854775808)
    else if secs > 0 then pure 9223372036854775807
    else pure d
  else
    pure d

/-- Go: `tokenFromGocb`, step by step: after the nil test each of the four
value-receiver accessors reads `*token`. -/
def Exec.tokenFromGocb (token : Option GocbMutationToken) :
    Except GoPanic (Option MutationToken) :=
  if token = none then
    pure none
  else do
    let t1 ← Exec.deref token
    let t2 ← Exec.deref token
    let t3 ← Exec.deref token
    let t4 ← Exec.deref token
    pure (some { BucketName := t1.BucketName
                 VbucketId := wrapU32 t2.PartitionID
                 VbucketUuid := wrapU64 t3.PartitionUUID
                 SeqNo := wrapU64 t4.SequenceNumber })

/-- Outcome of a converter call: a returned value, or the panic it raised. -/
def ConverterCall.run (c : ConverterCall) : Except GoPanic ConverterValue :=
  match c with
  | .casFromGocb cas => (Exec.casFromGocb cas).map ConverterValue.uint64
  | .casToGocb cas => (Exec.casToGocb cas).map ConverterValue.cas
  | .timeFromGo when => (Exec.timeFromGo when).map ConverterValue.timestamp
  | .timeToGo ts => (Exec.timeToGo ts).map ConverterValue.time
  | .durationFromGo dura => (Exec.durationFromGo dura).map ConverterValue.durationPb
  | .durationToGo d => (Exec.durationToGo d).map ConverterValue.duration
  | .tokenFromGocb token => (Exec.tokenFromGocb token).map ConverterValue.token

/-- The call returns a value. -/
def ConverterCall.Returns (c : ConverterCall) : Prop := ∃ v, c.run = .ok v

/-! ## system.go: `NewSystem` -/

/-- Go: `SystemOptions`, the field read by the chain construction. -/
structure SystemOptions where
  Debug : Bool
  deriving DecidableEq, Repr

/-- An entry written by `opts.Logger.Error(msg, zap.Any(key, value))`. -/
structure LogEntry (α : Type) where
  msg : String
  key : String
  value : α

/-- Go: `status.Errorf(c, format)` with a format free of verbs and no
arguments: the message is the format. -/
def statusErrorf (c : Code) (format : String) : Status := ⟨c, format⟩

/-- Go: the closure `recoveryHandler := func(p any) (err error)` of `NewSystem`,
with the logger as explicit state: it appends one error entry holding `p` and
returns `status.Errorf(codes.Internal, "An internal error occurred.")`. -/
def recoveryHandler {α : Type} (log : List (LogEntry α)) (p : α) :
    List (LogEntry α) × Status :=
  (log ++ [⟨"a panic has been triggered", "error: ", p⟩],
   statusErrorf Code.Internal "An internal error occurred.")

/-- What an interceptor does, whichever call style it serves. -/
inductive InterceptorKind where
  | tracing
  | metrics
  | debug
  | hooks
  | recovery
  deriving DecidableEq, Repr

/-- The values appended to `unaryInterceptors` in `NewSystem`. -/
inductive UnaryServerInterceptor where
  | otelgrpcUnaryServerInterceptor
  | metricsInterceptorUnaryInterceptor
  | debugInterceptorUnaryInterceptor
  | hooksManagerUnaryInterceptor
  | recoveryUnaryServerInterceptor
  deriving DecidableEq, Repr

/-- The values appended to `streamInterceptors` in `NewSystem`. -/
inductive StreamServerInterceptor where
  | otelgrpcStreamServerInterceptor
  | metricsInterceptorStreamInterceptor
  | debugInterceptorStreamInterceptor
  | recoveryStreamServerInterceptor
  deriving DecidableEq, Repr

/-- Kind of a unary interceptor. -/
def UnaryServerInterceptor.kind : UnaryServerInterceptor → InterceptorKind
  | .otelgrpcUnaryServerInterceptor => .tracing
  | .metricsInterceptorUnaryInterceptor => .metrics
  | .debugInterceptorUnaryInterceptor => .debug
  | .hooksManagerUnaryInterceptor => .hooks
  | .recoveryUnaryServerInterceptor => .recovery

/-- Kind of a streaming interceptor. -/
def StreamServerInterceptor.kind : StreamServerInterceptor → InterceptorKind
  | .otelgrpcStreamServerInterceptor => .tracing
  | .metricsInterceptorStreamInterceptor => .metrics
  | .debugInterceptorStreamInterceptor => .debug
  | .recoveryStreamServerInterceptor => .recovery

/-- Go: the slice `unaryInterceptors` after the appends of `NewSystem`. -/
def unaryInterceptors (opts : SystemOptions) : List UnaryServerInterceptor :=
  let s0 : List UnaryServerInterceptor := []
  let s1 := s0 ++ [.otelgrpcUnaryServerInterceptor]
  let s2 := s1 ++ [.metricsInterceptorUnaryInterceptor]
  let s3 := if opts.Debug then s2 ++ [.debugInterceptorUnaryInterceptor] else s2
  let s4 := s3 ++ [.hooksManagerUnaryInterceptor]
  s4 ++ [.recoveryUnaryServerInterceptor]

/-- Go: the slice `streamInterceptors` after the appends of `NewSystem`. -/
def streamInterceptors (opts : SystemOptions) : List StreamServerInterceptor :=
  let s0 : List StreamServerInterceptor := []
  let s1 := s0 ++ [.otelgrpcStreamServerInterceptor]
  let s2 := s1 ++ [.metricsInterceptorStreamInterceptor]
  let s3 := if opts.Debug then s2 ++ [.debugInterceptorStreamInterceptor] else s2
  s3 ++ [.recoveryStreamServerInterceptor]

/-- Kinds of the unary chain, in order. -/
def unaryKinds (opts : SystemOptions) : List InterceptorKind :=
  (unaryInterceptors opts).map UnaryServerInterceptor.kind

/-- Kinds of the streaming chain, in order. -/
def streamKinds (opts : SystemOptions) : List InterceptorKind :=
  (streamInterceptors opts).map StreamServerInterceptor.kind

/-! ## topology.go -/

/-- Go: `cbtopology.Server`. -/
structure Server where
  HostID : String
  NodeID : String
  ServerGroup : String
  HasMgmt : Bool
  HasKv : Bool
  HasViews : Bool
  HasQuery : Bool
  HasAnalytics : Bool
  HasSearch : Bool
  deriving DecidableEq, Repr

/-- Go: `cbtopology.DataServer`. -/
structure DataServer where
  Server : Option Server
  Vbuckets : List Int
  VbucketReplicas : List Int
  deriving DecidableEq, Repr

/-- Go: `cbtopology.Topology`. -/
structure Topology where
  RevEpoch : Nat
  Revision : Nat
  Servers : List (Option Server)
  deriving DecidableEq, Repr

/-- Go: `cbtopology.BucketTopology`. -/
structure BucketTopology where
  RevEpoch : Nat
  Revision : Nat
  Servers : List (Option Server)
  DataServers : List (Option DataServer)
  deriving DecidableEq, Repr

/-- The `NodeID`s of the servers of a snapshot, in order. -/
def nodeIDs (servers : List (Option Server)) : List String :=
  servers.filterMap (fun s => s.map (fun v => v.NodeID))

/-- The data-model invariant on `Servers`: no two servers share a `NodeID`. -/
def NodeIDsUnique (servers : List (Option Server)) : Prop := (nodeIDs servers).Nodup

instance (servers : List (Option Server)) : Decidable (NodeIDsUnique servers) := by
  unfold NodeIDsUnique; infer_instance

/-- Number of data servers that list partition `p` among their `Vbuckets`. -/
def primaryOwners (dataServers : List (Option DataServer)) (p : Int) : Nat :=
  ((dataServers.filterMap id).filter (fun ds => decide (p ∈ ds.Vbuckets))).length

/-- The data-model invariant on `DataServers` for a bucket of `n` partitions:
every partition `0, …, n-1` is listed by exactly one data server. -/
def PartitionsCoveredOnce (dataServers : List (Option DataServer)) (n : Nat) : Prop :=
  ∀ p ∈ List.range n, primaryOwners dataServers (Int.ofNat p) = 1

instance (dataServers : List (Option DataServer)) (n : Nat) :
    Decidable (PartitionsCoveredOnce dataServers n) := by
  unfold PartitionsCoveredOnce; infer_instance

/-! ### Construction of snapshots

`topology.go` declares the record types only.  The validating constructors the
design describes are not among the sources; they are written here from the
description. -/

/-- Modelled from the spec: the error class `MalformedTopology` of the
validating constructors, which the sources do not contain. -/
inductive TopologyError where
  | MalformedTopology
  deriving DecidableEq, Repr

/-- Modelled from the spec: the uniqueness test of the validating constructors,
which the sources do not contain ("a constructor validates that `Servers`
NodeIDs are unique").  It scans the identifiers from the left and reports an
identifier that occurs again further right. -/
def hasDuplicateNodeID : List String → Bool
  | [] => false
  | x :: rest => rest.contains x || hasDuplicateNodeID rest

/-- Modelled from the spec: the primary-owner lists of all data servers of a
bucket, one after the other, as the missing coverage test reads them. -/
def allVbuckets : List (Option DataServer) → List Int
  | [] => []
  | none :: rest => allVbuckets rest
  | some ds :: rest => ds.Vbuckets ++ allVbuckets rest

/-- Modelled from the spec: the coverage test of the validating constructor of
`BucketTopology`, which the sources do not contain ("for a bucket with N
partitions, the union of all `DataServers[i].Vbuckets` is exactly
`{0, …, N-1}` with no duplicates"): every partition below `n` is listed
exactly once and nothing else is listed. -/
def partitionsCovered (dataServers : List (Option DataServer)) (n : Nat) : Bool :=
  (List.range n).all (fun p => (allVbuckets dataServers).count (Int.ofNat p) == 1)
    && (allVbuckets dataServers).all (fun v => decide (0 ≤ v) && decide (v < Int.ofNat n))

/-- Modelled from the spec: the validating constructor of `Topology`, which the
sources do not contain ("a constructor validates that `Servers` NodeIDs are
unique ...; violating either fails with a `MalformedTopology` error rather than
producing an inconsistent snapshot"). -/
def NewTopology (revEpoch revision : Nat) (servers : List (Option Server)) :
    Except TopologyError Topology :=
  if hasDuplicateNodeID (nodeIDs servers) then
    .error .MalformedTopology
  else
    .ok { RevEpoch := revEpoch, Revision := revision, Servers := servers }

/-- Modelled from the spec: the validating constructor of `BucketTopology`,
which the sources do not contain ("... and, for `BucketTopology`, that every
partition is covered by exactly one primary owner"); `numPartitions` is the
size of the bucket's partition space. -/
def NewBucketTopology (revEpoch revision : Nat) (servers : List (Option Server))
    (dataServers : List (Option DataServer)) (numPartitions : Nat) :
    Except TopologyError BucketTopology :=
  if hasDuplicateNodeID (nodeIDs servers) then
    .error .MalformedTopology
  else if !partitionsCovered dataServers numPartitions then
    .error .MalformedTopology
  else
    .ok { RevEpoch := revEpoch, Revision := revision, Servers := servers,
          DataServers := dataServers }

/-! ## Sample values -/

/-- A time without monotonic reading, 5 s and 7 ns after the Unix epoch, UTC. -/
def sampleTime : Time := { wall := 7, ext := 62135596805, loc := none }

/-- A time with a monotonic reading (top bit of `wall` set), one second and
5 ns after the Unix epoch, in the local zone. -/
def sampleMonotonicTime : Time :=
  { wall := 2 ^ 63 + 2682288001 * 2 ^ 30 + 5, ext := 77, loc := some Location.localLoc }

/-- A receipt for the highest partition number a `uint16` can hold. -/
def sampleReceipt : GocbMutationToken :=
  { token := { VbID := 65535, VbUUID := 7, SeqNo := 9 }, bucketName := "default" }

/-- A node. -/
def sampleServer : Server :=
  { HostID := "10.0.0.1", NodeID := "node-a", ServerGroup := "group-1",
    HasMgmt := true, HasKv := true, HasViews := false, HasQuery := false,
    HasAnalytics := false, HasSearch := false }

/-- Another node. -/
def otherServer : Server :=
  { HostID := "10.0.0.2", NodeID := "node-b", ServerGroup := "group-1",
    HasMgmt := true, HasKv := true, HasViews := false, HasQuery := true,
    HasAnalytics := false, HasSearch := false }

/-- Data servers that own the three partitions of a bucket once each. -/
def coveringDataServers : List (Option DataServer) :=
  [some { Server := some sampleServer, Vbuckets := [0, 2], VbucketReplicas := [1] },
   some { Server := some otherServer, Vbuckets := [1], VbucketReplicas := [0, 2] }]

/-- A cluster snapshot listing the same `NodeID` twice. -/
def duplicateNodeTopology : Topology :=
  { RevEpoch := 0, Revision := 0, Servers := [some sampleServer, some sampleServer] }

/-- A bucket snapshot over two partitions in which partition `0` has two
primary owners and partition `1` none. -/
def doubleOwnerBucketTopology : BucketTopology :=
  { RevEpoch := 0, Revision := 0, Servers := [some sampleServer],
    DataServers :=
      [some { Server := some sampleServer, Vbuckets := [0], VbucketReplicas := [] },
       some { Server := some sampleServer, Vbuckets := [0], VbucketReplicas := [] }] }

end StellarGateway

namespace StellarGateway

/-! ## Auxiliary facts about the machine-integer reductions and `time.Time` -/

theorem wrapI64_of_isI64 (x : Int) (h : IsI64 x) : wrapI64 x = x := by
  unfold IsI64 at h
  unfold wrapI64
  omega

theorem wrapI64_isI64 (x : Int) : IsI64 (wrapI64 x) := by
  unfold IsI64 wrapI64
  omega

theorem wrapI64_sub_add (x k : Int) (h : IsI64 x) : wrapI64 (wrapI64 (x - k) + k) = x := by
  unfold IsI64 at h
  unfold wrapI64
  omega

theorem wrapU64_of_isU64 (n : Nat) (h : IsU64 n) : wrapU64 n = n := by
  unfold IsU64 at h
  unfold wrapU64
  omega

theorem unixToInternal_eq : unixToInternal = 62135596800 := by decide

theorem internalToUnix_eq : internalToUnix = -62135596800 := by decide

theorem land_hasMonotonic_of_lt (n : Nat) (h : n < 2 ^ 63) : n &&& hasMonotonic = 0 := by
  unfold hasMonotonic
  rw [Nat.and_two_pow, Nat.testBit_lt_two_pow h]
  rfl

theorem land_nsecMask (n : Nat) : n &&& nsecMask = n % 1073741824 := by
  unfold nsecMask
  rw [Nat.and_pow_two_sub_one_eq_mod]

theorem nsec_eq (t : Time) : t.nsec = Int.ofNat (t.wall % 1073741824) := by
  unfold Time.nsec wrapI32
  rw [land_nsecMask]
  have h : t.wall % 1073741824 < 1073741824 := Nat.mod_lt _ (by decide)
  simp only [Int.ofNat_eq_coe]
  omega

theorem sec_isI64 (t : Time) (h : IsI64 t.ext) : IsI64 t.sec := by
  unfold Time.sec
  split
  · exact wrapI64_isI64 _
  · exact h

theorem Unix_zero_zero :
    Unix 0 0 = { wall := 0, ext := unixToInternal, loc := some Location.localLoc } := by
  decide

/-- Go's `Equal` against `time.Unix(0, 0)` tests for the Unix-epoch instant. -/
theorem equal_unix_zero (t : Time) :
    t.Equal (Unix 0 0) = true ↔ t.instant = unixEpochInstant := by
  rw [Unix_zero_zero]
  unfold Time.Equal Time.instant unixEpochInstant
  have hs : ({ wall := 0, ext := unixToInternal, loc := some Location.localLoc } : Time).sec
      = unixToInternal := by
    unfold Time.sec; simp
  have hn : ({ wall := 0, ext := unixToInternal, loc := some Location.localLoc } : Time).nsec
      = 0 := by
    unfold Time.nsec; simp [wrapI32]
  simp [hs, hn]

/-- Go's `IsZero` tests for the zero instant. -/
theorem isZero_iff (t : Time) : t.IsZero = true ↔ t.instant = zeroInstant := by
  unfold Time.IsZero Time.instant zeroInstant
  simp

/-- The value `time.Unix(s, n).UTC()` for nanoseconds already in `[0, 1e9)`. -/
theorem Unix_UTC_of_nanos (s n : Int) (h0 : 0 ≤ n) (h1 : n ≤ 999999999) :
    (Unix s n).UTC = { wall := n.toNat, ext := wrapI64 (s + unixToInternal), loc := none } := by
  have hn : ¬ (n < 0 ∨ n ≥ 1000000000) := by omega
  have hw : wrapI32 n = n := by unfold wrapI32; omega
  have hu : toU64 n = n.toNat := by
    unfold toU64
    congr 1
    omega
  have hlt : n.toNat < 2 ^ 63 := by
    have : (2 : Nat) ^ 63 = 9223372036854775808 := by norm_num
    omega
  unfold Unix
  rw [if_neg hn, hw]
  unfold unixTime Time.UTC Time.setLoc Time.stripMono
  simp [hu, land_hasMonotonic_of_lt _ hlt]

/-- The timestamp built by `timestamppb.New` denotes the instant of its argument. -/
theorem new_instant (t : Time) (h : IsI64 t.ext) :
    (Timestamp.New t).Seconds = t.Unix ∧ (Timestamp.New t).Nanos = t.Nanosecond ∧
    (Timestamp.New t).instant = t.instant := by
  have hs := sec_isI64 t h
  have hn := nsec_eq t
  have hlt : t.wall % 1073741824 < 1073741824 := Nat.mod_lt _ (by decide)
  have hsec : (Timestamp.New t).Seconds = t.Unix := by
    unfold Timestamp.New Time.Unix Time.unixSec
    exact wrapI64_of_isI64 _ (wrapI64_isI64 _)
  have hnan : (Timestamp.New t).Nanos = t.Nanosecond := by
    unfold Timestamp.New Time.Nanosecond
    simp only [hn, Int.ofNat_eq_coe]
    unfold wrapI32
    omega
  refine ⟨hsec, hnan, ?_⟩
  unfold Timestamp.instant Time.instant
  rw [hsec, hnan]
  unfold Time.Unix Time.unixSec Time.Nanosecond
  rw [internalToUnix_eq, unixToInternal_eq]
  have := wrapI64_sub_add t.sec 62135596800 hs
  rw [Int.sub_eq_add_neg] at this
  rw [this]

/-- The sentinel test of `timeFromGo`. -/
theorem timeFromGo_eq_none_iff (t : Time) :
    timeFromGo t = none ↔ (t.instant = zeroInstant ∨ t.instant = unixEpochInstant) := by
  unfold timeFromGo
  by_cases he : t.Equal (Unix 0 0) = true
  · simp [he, (equal_unix_zero t).1 he]
  · by_cases hz : t.IsZero = true
    · simp [he, hz, (isZero_iff t).1 hz]
    · have he1 : ¬ t.instant = unixEpochInstant := fun h => he ((equal_unix_zero t).2 h)
      have hz1 : ¬ t.instant = zeroInstant := fun h => hz ((isZero_iff t).2 h)
      simp [he, hz, he1, hz1]

/-- Outside the two sentinels `timeFromGo` is `timestamppb.New`. -/
theorem timeFromGo_eq_some (t : Time) (hz : t.instant ≠ zeroInstant)
    (he : t.instant ≠ unixEpochInstant) : timeFromGo t = some (Timestamp.New t) := by
  unfold timeFromGo
  have he1 : ¬ t.Equal (Unix 0 0) = true := fun h => he ((equal_unix_zero t).1 h)
  have hz1 : ¬ t.IsZero = true := fun h => hz ((isZero_iff t).1 h)
  simp [he1, hz1]

theorem getSeconds_some (ts : Timestamp) :
    Timestamp.GetSeconds (some ts) = ts.Seconds := rfl

theorem getNanos_some (ts : Timestamp) : Timestamp.GetNanos (some ts) = ts.Nanos := rfl

/-- The time rebuilt from `timestamppb.New t`. -/
theorem timeToGo_new (t : Time) (hwf : t.WF) :
    timeToGo (some (Timestamp.New t))
      = { wall := t.wall % 1073741824, ext := t.sec, loc := none } := by
  unfold Time.WF at hwf
  obtain ⟨_, hext, hn0, hn1⟩ := hwf
  have hs := sec_isI64 t hext
  obtain ⟨h1, h2, _⟩ := new_instant t hext
  unfold timeToGo Timestamp.AsTime
  rw [getSeconds_some, getNanos_some, h1, h2]
  unfold Time.Nanosecond
  have hni : IsI64 t.nsec := by unfold IsI64; omega
  rw [wrapI64_of_isI64 _ hni, Unix_UTC_of_nanos _ _ hn0 hn1]
  have hx : wrapI64 (wrapI64 t.Unix + unixToInternal) = t.sec := by
    unfold Time.Unix Time.unixSec
    rw [wrapI64_of_isI64 _ (wrapI64_isI64 _), internalToUnix_eq, unixToInternal_eq]
    have := wrapI64_sub_add t.sec 62135596800 hs
    rw [Int.sub_eq_add_neg] at this
    exact this
  rw [hx, nsec_eq]
  rfl

/-- A time without monotonic reading: its seconds are `ext`, its nanoseconds
the low bits of `wall`. -/
theorem sec_nsec_of_small (w : Nat) (e : Int) (l : Option Location) (h : w < 1073741824) :
    ({ wall := w, ext := e, loc := l } : Time).sec = e ∧
    ({ wall := w, ext := e, loc := l } : Time).nsec = Int.ofNat w := by
  have hlt : w < 2 ^ 63 := by
    have : (2 : Nat) ^ 63 = 9223372036854775808 := by norm_num
    omega
  constructor
  · unfold Time.sec
    simp [land_hasMonotonic_of_lt _ hlt]
  · rw [nsec_eq]
    simp only [Int.ofNat_eq_coe]
    congr 1
    exact Nat.mod_eq_of_lt h

theorem casToGocb_some (v : Nat) : casToGocb (some v) = .ok (wrapU64 v) := rfl

theorem quo_ok (a b : Int) (h : b ≠ 0) : Exec.quo a b = .ok (Int.tdiv a b) := by
  unfold Exec.quo
  rw [if_neg h]

theorem exec_casToGocb (cas : Option Nat) : Exec.casToGocb cas = casToGocb cas := by
  cases cas <;> rfl

theorem ok_ite {ε α : Type} (c : Prop) [Decidable c] (a b : α) :
    (if c then (Except.ok a : Except ε α) else Except.ok b) = .ok (if c then a else b) := by
  split <;> rfl

theorem exec_Unix (sec nsec : Int) : Exec.Unix sec nsec = .ok (Unix sec nsec) := by
  unfold Exec.Unix Unix
  rw [quo_ok _ _ (by decide)]
  by_cases h : nsec < 0 ∨ nsec ≥ 1000000000
  · rw [if_pos h, if_pos h]
    exact ok_ite _ _ _
  · rw [if_neg h, if_neg h]
    rfl

theorem exec_timeFromGo (when : Time) : Exec.timeFromGo when = .ok (timeFromGo when) := by
  unfold Exec.timeFromGo timeFromGo
  rw [exec_Unix]
  by_cases h1 : when.Equal (Unix 0 0) = true
  · rw [if_pos h1]
    show (if _ then _ else _) = _
    rw [if_pos h1]
    rfl
  · rw [if_neg h1]
    show (if _ then _ else _) = _
    rw [if_neg h1]
    exact ok_ite _ _ _

theorem exec_timestampGetSeconds (x : Option Timestamp) :
    Exec.timestampGetSeconds x = .ok (Timestamp.GetSeconds x) := by
  cases x <;> rfl

theorem exec_timestampGetNanos (x : Option Timestamp) :
    Exec.timestampGetNanos x = .ok (Timestamp.GetNanos x) := by
  cases x <;> rfl

theorem exec_timeToGo (ts : Option Timestamp) : Exec.timeToGo ts = .ok (timeToGo ts) := by
  unfold Exec.timeToGo
  rw [exec_timestampGetSeconds, exec_timestampGetNanos]
  show (Exec.Unix _ _ >>= _) = _
  rw [exec_Unix]
  rfl

theorem exec_durationFromGo (dura : Int) :
    Exec.durationFromGo dura = .ok (durationFromGo dura) := by
  show (Exec.quo dura 1000000000 >>= _) = _
  rw [quo_ok _ _ (by decide)]
  rfl

theorem exec_durationGetSeconds (x : Option DurationPb) :
    Exec.durationGetSeconds x = .ok (DurationPb.GetSeconds x) := by
  cases x <;> rfl

theorem exec_durationGetNanos (x : Option DurationPb) :
    Exec.durationGetNanos x = .ok (DurationPb.GetNanos x) := by
  cases x <;> rfl

theorem exec_durationToGo (x : Option DurationPb) :
    Exec.durationToGo x = .ok (durationToGo x) := by
  unfold Exec.durationToGo
  rw [exec_durationGetSeconds, exec_durationGetNanos]
  have hq := quo_ok (wrapI64 (DurationPb.GetSeconds x * 1000000000)) 1000000000 (by decide)
  dsimp only [bind, Except.bind]
  rw [hq]
  dsimp only [pure, Except.pure]
  rw [ok_ite, ok_ite, ok_ite]
  rfl

theorem exec_tokenFromGocb (token : Option GocbMutationToken) :
    Exec.tokenFromGocb token = .ok (tokenFromGocb token) := by
  cases token <;> rfl

theorem not_hasDuplicateNodeID_iff (l : List String) :
    hasDuplicateNodeID l = false ↔ l.Nodup := by
  induction l with
  | nil => simp [hasDuplicateNodeID]
  | cons x rest ih =>
    simp only [hasDuplicateNodeID, Bool.or_eq_false_iff, List.nodup_cons, ih]
    simp

theorem hasDuplicateNodeID_iff (servers : List (Option Server)) :
    hasDuplicateNodeID (nodeIDs servers) = true ↔ ¬ NodeIDsUnique servers := by
  unfold NodeIDsUnique
  rw [← not_hasDuplicateNodeID_iff]
  simp

theorem primaryOwners_cons_none (rest : List (Option DataServer)) (p : Int) :
    primaryOwners (none :: rest) p = primaryOwners rest p := rfl

theorem primaryOwners_cons_some (d : DataServer) (rest : List (Option DataServer))
    (p : Int) :
    primaryOwners (some d :: rest) p
      = (if p ∈ d.Vbuckets then 1 else 0) + primaryOwners rest p := by
  unfold primaryOwners
  by_cases h : p ∈ d.Vbuckets
  · simp [h, Nat.add_comm]
  · simp [h]

/-- The number of owners of a partition against the number of times it is
listed: never more, and positive as soon as it is listed. -/
theorem primaryOwners_count (ds : List (Option DataServer)) (p : Int) :
    primaryOwners ds p ≤ (allVbuckets ds).count p ∧
    (0 < (allVbuckets ds).count p → 0 < primaryOwners ds p) := by
  induction ds with
  | nil => exact ⟨Nat.le_refl _, fun h => h⟩
  | cons d rest ih =>
    cases d with
    | none => simpa [primaryOwners_cons_none, allVbuckets] using ih
    | some d =>
      rw [primaryOwners_cons_some]
      simp only [allVbuckets, List.count_append]
      by_cases h : p ∈ d.Vbuckets
      · have hc : 0 < d.Vbuckets.count p := List.count_pos_iff.2 h
        rw [if_pos h]
        constructor <;> omega
      · have hc : d.Vbuckets.count p = 0 := List.count_eq_zero_of_not_mem h
        rw [if_neg h, hc]
        constructor <;> omega

theorem count_of_covered (ds : List (Option DataServer)) (n : Nat)
    (h : partitionsCovered ds n = true) (p : Nat) (hp : p < n) :
    (allVbuckets ds).count (Int.ofNat p) = 1 := by
  unfold partitionsCovered at h
  rw [Bool.and_eq_true, List.all_eq_true] at h
  have := h.1 p (List.mem_range.2 hp)
  simpa using this

theorem primaryOwners_of_covered (ds : List (Option DataServer)) (n : Nat)
    (h : partitionsCovered ds n = true) (p : Nat) (hp : p < n) :
    primaryOwners ds (Int.ofNat p) = 1 := by
  have hc := count_of_covered ds n h p hp
  obtain ⟨h1, h2⟩ := primaryOwners_count ds (Int.ofNat p)
  omega

theorem covered_of_perm (ds : List (Option DataServer)) (n : Nat)
    (h : (allVbuckets ds).Perm ((List.range n).map Int.ofNat)) :
    partitionsCovered ds n = true := by
  unfold partitionsCovered
  rw [Bool.and_eq_true, List.all_eq_true, List.all_eq_true]
  constructor
  · intro p hp
    rw [h.count_eq]
    have hnd : ((List.range n).map Int.ofNat).Nodup :=
      (List.nodup_range n).map (fun a b hab => Int.ofNat.inj hab)
    have hm : Int.ofNat p ∈ (List.range n).map Int.ofNat := List.mem_map_of_mem _ hp
    have h1 := List.count_eq_one_of_mem hnd hm
    simp only [beq_iff_eq]
    exact h1
  · intro v hv
    have hv2 := h.subset hv
    rw [List.mem_map] at hv2
    obtain ⟨q, hq, rfl⟩ := hv2
    have := List.mem_range.1 hq
    simp only [Int.ofNat_eq_coe, Bool.and_eq_true, decide_eq_true_eq]
    omega

/-! ## Claims -/

/-- C1: `durabilityLevelToGocb` succeeds exactly on the three recognised wire
levels, mapping `MAJORITY`, `MAJORITY_AND_PERSIST_TO_ACTIVE` and
`PERSIST_TO_MAJORITY` to `DurabilityLevelMajority`,
`DurabilityLevelMajorityAndPersistOnMaster` and `DurabilityLevelPersistToMajority`
with a nil status; every other wire value gives a status with code
`InvalidArgument` and the message `invalid durability level specified`. -/
theorem durabilityLevelToGocb_spec (W : WireDurabilityLevels) (G : GocbDurabilityLevels)
    (hW : W.Distinct) :
    durabilityLevelToGocb W G W.MAJORITY = (G.DurabilityLevelMajority, none) ∧
    durabilityLevelToGocb W G W.MAJORITY_AND_PERSIST_TO_ACTIVE
      = (G.DurabilityLevelMajorityAndPersistOnMaster, none) ∧
    durabilityLevelToGocb W G W.PERSIST_TO_MAJORITY
      = (G.DurabilityLevelPersistToMajority, none) ∧
    (∀ dl : Int, dl ≠ W.MAJORITY → dl ≠ W.MAJORITY_AND_PERSIST_TO_ACTIVE →
      dl ≠ W.PERSIST_TO_MAJORITY →
      durabilityLevelToGocb W G dl
        = (0, some ⟨Code.InvalidArgument, "invalid durability level specified"⟩)) ∧
    (∀ dl : Int, (durabilityLevelToGocb W G dl).2 = none ↔
      (dl = W.MAJORITY ∨ dl = W.MAJORITY_AND_PERSIST_TO_ACTIVE ∨
        dl = W.PERSIST_TO_MAJORITY)) := by
  obtain ⟨h12, h13, h23⟩ := hW
  refine ⟨?_, ?_, ?_, ?_, ?_⟩
  · simp [durabilityLevelToGocb]
  · simp [durabilityLevelToGocb, Ne.symm h12]
  · simp [durabilityLevelToGocb, Ne.symm h13, Ne.symm h23]
  · intro dl h1 h2 h3
    simp [durabilityLevelToGocb, h1, h2, h3]
  · intro dl
    unfold durabilityLevelToGocb
    by_cases h1 : dl = W.MAJORITY
    · rw [if_pos h1]
      exact ⟨fun _ => Or.inl h1, fun _ => rfl⟩
    · rw [if_neg h1]
      by_cases h2 : dl = W.MAJORITY_AND_PERSIST_TO_ACTIVE
      · rw [if_pos h2]
        exact ⟨fun _ => Or.inr (Or.inl h2), fun _ => rfl⟩
      · rw [if_neg h2]
        by_cases h3 : dl = W.PERSIST_TO_MAJORITY
        · rw [if_pos h3]
          exact ⟨fun _ => Or.inr (Or.inr h3), fun _ => rfl⟩
        · rw [if_neg h3]
          simp [h1, h2, h3]

/-- Witness for `durabilityLevelToGocb_spec`: the wire constants `0, 1, 2`, the
driver constants `2, 3, 4`, and the unrecognised wire value `7`. -/
theorem durabilityLevelToGocb_spec_witness :
    (⟨0, 1, 2⟩ : WireDurabilityLevels).Distinct ∧
    durabilityLevelToGocb ⟨0, 1, 2⟩ ⟨2, 3, 4⟩ 1 = (3, none) ∧
    durabilityLevelToGocb ⟨0, 1, 2⟩ ⟨2, 3, 4⟩ 7
      = (0, some ⟨Code.InvalidArgument, "invalid durability level specified"⟩) :=
  ⟨by decide,
   (durabilityLevelToGocb_spec ⟨0, 1, 2⟩ ⟨2, 3, 4⟩ (by decide)).2.1,
   (durabilityLevelToGocb_spec ⟨0, 1, 2⟩ ⟨2, 3, 4⟩ (by decide)).2.2.2.1 7
     (by decide) (by decide) (by decide)⟩

/-- C2: `timeFromGo t` is nil exactly when `t` denotes the zero instant or the
Unix-epoch instant; for any other `t` the result is a timestamp whose seconds
and nanos are `t.Unix()` and `t.Nanosecond()`, hence denote the instant of `t`;
the location of `t` has no influence on the result. -/
theorem timeFromGo_spec (t : Time) (hwf : t.WF) :
    (timeFromGo t = none ↔ (t.instant = zeroInstant ∨ t.instant = unixEpochInstant)) ∧
    ((t.instant = zeroInstant ∨ t.instant = unixEpochInstant) ∨
      ∃ ts : Timestamp, timeFromGo t = some ts ∧ ts.Seconds = t.Unix ∧
        ts.Nanos = t.Nanosecond ∧ ts.instant = t.instant) ∧
    (∀ l : Option Location, timeFromGo { t with loc := l } = timeFromGo t) := by
  refine ⟨timeFromGo_eq_none_iff t, ?_, fun _ => rfl⟩
  by_cases h : t.instant = zeroInstant ∨ t.instant = unixEpochInstant
  · exact Or.inl h
  · right
    have hz : t.instant ≠ zeroInstant := fun e => h (Or.inl e)
    have he : t.instant ≠ unixEpochInstant := fun e => h (Or.inr e)
    exact ⟨Timestamp.New t, timeFromGo_eq_some t hz he, new_instant t hwf.2.1⟩

/-- C7: for a time `t` that is neither the zero instant nor the Unix-epoch
instant, `timeToGo (timeFromGo t)` has the seconds and nanoseconds since the
Unix epoch of `t`, denotes the same instant, and is `Equal` to `t`. -/
theorem time_round_trip (t : Time) (hwf : t.WF) (hz : t.instant ≠ zeroInstant)
    (he : t.instant ≠ unixEpochInstant) :
    (timeToGo (timeFromGo t)).Unix = t.Unix ∧
    (timeToGo (timeFromGo t)).Nanosecond = t.Nanosecond ∧
    (timeToGo (timeFromGo t)).instant = t.instant ∧
    (timeToGo (timeFromGo t)).Equal t = true := by
  rw [timeFromGo_eq_some t hz he, timeToGo_new t hwf]
  have hlt : t.wall % 1073741824 < 1073741824 := Nat.mod_lt _ (by decide)
  obtain ⟨hs, hn⟩ := sec_nsec_of_small (t.wall % 1073741824) t.sec none hlt
  have hn2 : ({ wall := t.wall % 1073741824, ext := t.sec, loc := none } : Time).nsec
      = t.nsec := by rw [hn, nsec_eq]
  have hlt63 : t.wall % 1073741824 < 2 ^ 63 := by
    have : (2 : Nat) ^ 63 = 9223372036854775808 := by norm_num
    omega
  refine ⟨?_, ?_, ?_, ?_⟩
  · unfold Time.Unix Time.unixSec
    rw [hs]
  · unfold Time.Nanosecond
    exact hn2
  · unfold Time.instant
    rw [hs, hn2]
  · unfold Time.Equal
    have hm : (t.wall % 1073741824) &&& t.wall &&& hasMonotonic = 0 := by
      have hle : (t.wall % 1073741824) &&& t.wall ≤ t.wall % 1073741824 := Nat.and_le_left
      exact land_hasMonotonic_of_lt _ (lt_of_le_of_lt hle hlt63)
    simp [hm, hs, hn2]

/-- Witness for `timeFromGo_spec`: a time 5 s and 7 ns after the Unix epoch. -/
theorem timeFromGo_spec_witness :
    sampleTime.WF ∧
    (timeFromGo sampleTime = none ↔
      (sampleTime.instant = zeroInstant ∨ sampleTime.instant = unixEpochInstant)) ∧
    ((sampleTime.instant = zeroInstant ∨ sampleTime.instant = unixEpochInstant) ∨
      ∃ ts : Timestamp, timeFromGo sampleTime = some ts ∧ ts.Seconds = sampleTime.Unix ∧
        ts.Nanos = sampleTime.Nanosecond ∧ ts.instant = sampleTime.instant) ∧
    (∀ l : Option Location, timeFromGo { sampleTime with loc := l } = timeFromGo sampleTime) :=
  ⟨by decide, timeFromGo_spec sampleTime (by decide)⟩

/-- Witness for `time_round_trip`: a time carrying a monotonic reading. -/
theorem time_round_trip_witness :
    sampleMonotonicTime.WF ∧ sampleMonotonicTime.instant ≠ zeroInstant ∧
    sampleMonotonicTime.instant ≠ unixEpochInstant ∧
    (timeToGo (timeFromGo sampleMonotonicTime)).Unix = sampleMonotonicTime.Unix ∧
    (timeToGo (timeFromGo sampleMonotonicTime)).Nanosecond
      = sampleMonotonicTime.Nanosecond ∧
    (timeToGo (timeFromGo sampleMonotonicTime)).instant = sampleMonotonicTime.instant ∧
    (timeToGo (timeFromGo sampleMonotonicTime)).Equal sampleMonotonicTime = true :=
  ⟨by decide, by decide, by decide,
   time_round_trip sampleMonotonicTime (by decide) (by decide) (by decide)⟩

/-- C3: `tokenFromGocb` maps an absent receipt to an absent wire token, and
every present receipt to a present wire token whose `BucketName`, `VbucketId`,
`VbucketUuid` and `SeqNo` are the receipt's bucket name, partition id,
partition UUID and sequence number. -/
theorem tokenFromGocb_spec (tok : GocbMutationToken) (h : tok.WF) :
    tokenFromGocb none = none ∧
    ∃ w : MutationToken, tokenFromGocb (some tok) = some w ∧
      w.BucketName = tok.BucketName ∧ w.VbucketId = tok.PartitionID ∧
      w.VbucketUuid = tok.PartitionUUID ∧ w.SeqNo = tok.SequenceNumber ∧
      w.VbucketId = tok.token.VbID ∧ w.VbucketUuid = tok.token.VbUUID ∧
      w.SeqNo = tok.token.SeqNo := by
  obtain ⟨h1, h2, h3⟩ := h
  unfold IsU64 at h2 h3
  have e1 : wrapU32 tok.PartitionID = tok.PartitionID := by
    unfold GocbMutationToken.PartitionID wrapU32 wrapU64
    omega
  have e2 : wrapU64 tok.PartitionUUID = tok.PartitionUUID := by
    unfold GocbMutationToken.PartitionUUID wrapU64
    omega
  have e3 : wrapU64 tok.SequenceNumber = tok.SequenceNumber := by
    unfold GocbMutationToken.SequenceNumber wrapU64
    omega
  have f1 : tok.PartitionID = tok.token.VbID := by
    unfold GocbMutationToken.PartitionID wrapU64
    omega
  have f2 : tok.PartitionUUID = tok.token.VbUUID := by
    unfold GocbMutationToken.PartitionUUID wrapU64
    omega
  have f3 : tok.SequenceNumber = tok.token.SeqNo := by
    unfold GocbMutationToken.SequenceNumber wrapU64
    omega
  refine ⟨rfl, _, rfl, rfl, e1, e2, e3, ?_, ?_, ?_⟩
  · exact e1.trans f1
  · exact e2.trans f2
  · exact e3.trans f3

/-- Witness for `tokenFromGocb_spec`: a receipt for partition `65535`. -/
theorem tokenFromGocb_spec_witness :
    sampleReceipt.WF ∧
    tokenFromGocb none = none ∧
    ∃ w : MutationToken, tokenFromGocb (some sampleReceipt) = some w ∧
      w.BucketName = sampleReceipt.BucketName ∧ w.VbucketId = sampleReceipt.PartitionID ∧
      w.VbucketUuid = sampleReceipt.PartitionUUID ∧
      w.SeqNo = sampleReceipt.SequenceNumber ∧
      w.VbucketId = sampleReceipt.token.VbID ∧
      w.VbucketUuid = sampleReceipt.token.VbUUID ∧
      w.SeqNo = sampleReceipt.token.SeqNo :=
  ⟨by decide, tokenFromGocb_spec sampleReceipt (by decide)⟩

/-- C4: for every panic value the recovery handler returns the status with code
`Internal` and message `An internal error occurred.`; the returned error is the
same for any two panic values, of whatever type, and whatever was logged
before; the panic value only reaches the log. -/
theorem recoveryHandler_spec {α β : Type} (log : List (LogEntry α))
    (log2 : List (LogEntry β)) (p : α) (q : β) :
    (recoveryHandler log p).2 = ⟨Code.Internal, "An internal error occurred."⟩ ∧
    (recoveryHandler log p).2 = (recoveryHandler log2 q).2 ∧
    (recoveryHandler log p).1 = log ++ [⟨"a panic has been triggered", "error: ", p⟩] :=
  ⟨rfl, rfl, rfl⟩

/-- C5: for both values of `Debug` the unary chain is tracing, metrics, the debug
interceptor exactly when `Debug` is set, hooks, recovery; tracing is first,
recovery last, and hooks directly precedes recovery. -/
theorem unaryInterceptors_order (opts : SystemOptions) :
    unaryInterceptors opts
      = [.otelgrpcUnaryServerInterceptor, .metricsInterceptorUnaryInterceptor]
        ++ (if opts.Debug then [.debugInterceptorUnaryInterceptor] else [])
        ++ [.hooksManagerUnaryInterceptor, .recoveryUnaryServerInterceptor] ∧
    unaryKinds opts
      = [.tracing, .metrics] ++ (if opts.Debug then [.debug] else [])
        ++ [.hooks, .recovery] ∧
    (InterceptorKind.debug ∈ unaryKinds opts ↔ opts.Debug = true) ∧
    (unaryKinds opts).head? = some .tracing ∧
    (unaryKinds opts).getLast? = some .recovery ∧
    (unaryKinds opts).dropLast.getLast? = some .hooks := by
  obtain ⟨d⟩ := opts
  cases d <;> decide

/-- C6, as stated, fails: with `Debug` set (and likewise without) the streaming
chain is one shorter than the unary chain, its kinds differ from the unary
kinds, and it holds no hooks interceptor. -/
theorem streamInterceptors_parallel_counterexample :
    streamKinds ⟨true⟩ = [.tracing, .metrics, .debug, .recovery] ∧
    unaryKinds ⟨true⟩ = [.tracing, .metrics, .debug, .hooks, .recovery] ∧
    (streamInterceptors ⟨true⟩).length ≠ (unaryInterceptors ⟨true⟩).length ∧
    streamKinds ⟨true⟩ ≠ unaryKinds ⟨true⟩ ∧
    InterceptorKind.hooks ∉ streamKinds ⟨true⟩ ∧
    (streamInterceptors ⟨false⟩).length ≠ (unaryInterceptors ⟨false⟩).length ∧
    InterceptorKind.hooks ∉ streamKinds ⟨false⟩ := by
  decide

/-- C6, amended: for both values of `Debug` the streaming chain is tracing,
metrics, the debug interceptor exactly when `Debug` is set, recovery: the unary
chain without the hooks interceptor, hence one shorter, with tracing first and
recovery last. -/
theorem streamInterceptors_order (opts : SystemOptions) :
    streamInterceptors opts
      = [.otelgrpcStreamServerInterceptor, .metricsInterceptorStreamInterceptor]
        ++ (if opts.Debug then [.debugInterceptorStreamInterceptor] else [])
        ++ [.recoveryStreamServerInterceptor] ∧
    streamKinds opts
      = [.tracing, .metrics] ++ (if opts.Debug then [.debug] else []) ++ [.recovery] ∧
    streamKinds opts = (unaryKinds opts).filter (fun k => decide (k ≠ .hooks)) ∧
    (streamInterceptors opts).length + 1 = (unaryInterceptors opts).length ∧
    InterceptorKind.hooks ∉ streamKinds opts ∧
    (streamKinds opts).head? = some .tracing ∧
    (streamKinds opts).getLast? = some .recovery := by
  obtain ⟨d⟩ := opts
  cases d <;> decide

/-- C8: the version-token conversions are inverse to each other on every 64-bit
value and alter nothing: `casToGocb (&casFromGocb c) = c`,
`casFromGocb (casToGocb (&x)) = x`, and each direction returns its argument. -/
theorem cas_round_trip (c x : Nat) (hc : IsU64 c) (hx : IsU64 x) :
    casToGocb (some (casFromGocb c)) = .ok c ∧
    (casToGocb (some x)).map casFromGocb = .ok x ∧
    casFromGocb c = c ∧
    casToGocb (some x) = .ok x := by
  have h1 : casFromGocb c = c := wrapU64_of_isU64 c hc
  have h2 : casToGocb (some x) = .ok x := by
    rw [casToGocb_some, wrapU64_of_isU64 x hx]
  have h3 : casFromGocb x = x := wrapU64_of_isU64 x hx
  refine ⟨?_, ?_, h1, h2⟩
  · rw [h1]
    rw [casToGocb_some, wrapU64_of_isU64 c hc]
  · rw [h2]
    show Except.ok (casFromGocb x) = Except.ok x
    rw [h3]

/-- Witness for `cas_round_trip`: the largest 64-bit value and `0`. -/
theorem cas_round_trip_witness :
    IsU64 18446744073709551615 ∧ IsU64 0 ∧
    casToGocb (some (casFromGocb 18446744073709551615)) = .ok 18446744073709551615 ∧
    (casToGocb (some 0)).map casFromGocb = .ok 0 ∧
    casFromGocb 18446744073709551615 = 18446744073709551615 ∧
    casToGocb (some 0) = .ok 0 :=
  ⟨by decide, by decide, cas_round_trip 18446744073709551615 0 (by decide) (by decide)⟩

/-- C9, as stated, fails: `casToGocb` applied to the nil pointer does not return,
it panics on the dereference. -/
theorem casToGocb_nil_counterexample :
    Exec.casToGocb none = .error GoPanic.nilDereference ∧
    (ConverterCall.casToGocb none).run = .error GoPanic.nilDereference ∧
    ¬ (ConverterCall.casToGocb none).Returns ∧
    ¬ (∀ c : ConverterCall, c.Returns) := by
  have h : ¬ (ConverterCall.casToGocb none).Returns := by
    rintro ⟨v, hv⟩
    cases hv
  exact ⟨rfl, rfl, h, fun hall => h (hall _)⟩

/-- C9, amended: every call of `casFromGocb`, `timeFromGo`, `timeToGo`,
`durationFromGo`, `durationToGo` and `tokenFromGocb` returns a value, nil
arguments included, and so does every call of `casToGocb` on a non-nil
pointer: followed step by step, no read through a pointer meets nil and no
division meets a zero divisor. -/
theorem converters_total (c : ConverterCall) (h : c ≠ ConverterCall.casToGocb none) :
    c.Returns := by
  unfold ConverterCall.Returns ConverterCall.run
  cases c with
  | casFromGocb cas => exact ⟨_, rfl⟩
  | casToGocb cas =>
    cases cas with
    | none => exact absurd rfl h
    | some v => exact ⟨_, rfl⟩
  | timeFromGo when => exact ⟨_, by simp only [exec_timeFromGo]; rfl⟩
  | timeToGo ts => exact ⟨_, by simp only [exec_timeToGo]; rfl⟩
  | durationFromGo dura => exact ⟨_, by simp only [exec_durationFromGo]; rfl⟩
  | durationToGo d => exact ⟨_, by simp only [exec_durationToGo]; rfl⟩
  | tokenFromGocb token => exact ⟨_, by simp only [exec_tokenFromGocb]; rfl⟩

/-- Witness for `converters_total`: `timeToGo` on the absent wire message. -/
theorem converters_total_witness :
    ConverterCall.timeToGo none ≠ ConverterCall.casToGocb none ∧
    (ConverterCall.timeToGo none).Returns :=
  ⟨by decide, converters_total (ConverterCall.timeToGo none) (by decide)⟩

/-- C10: the validating constructors reject, with `MalformedTopology`, a
`Topology` or `BucketTopology` whose `Servers` repeat a `NodeID` and a
`BucketTopology` in which some partition of the bucket is listed by no data
server or by more than one; a snapshot they return has unique `NodeID`s (and
every partition owned once) and carries the given fields; well-formed input is
accepted. -/
theorem NewTopology_validates :
    (∀ (e r : Nat) (servers : List (Option Server)),
      ¬ NodeIDsUnique servers → NewTopology e r servers = .error .MalformedTopology) ∧
    (∀ (e r : Nat) (servers : List (Option Server)) (ds : List (Option DataServer))
      (n : Nat), ¬ NodeIDsUnique servers →
      NewBucketTopology e r servers ds n = .error .MalformedTopology) ∧
    (∀ (e r : Nat) (servers : List (Option Server)) (ds : List (Option DataServer))
      (n p : Nat), p < n → primaryOwners ds (Int.ofNat p) ≠ 1 →
      NewBucketTopology e r servers ds n = .error .MalformedTopology) ∧
    (∀ (e r : Nat) (servers : List (Option Server)) (t : Topology),
      NewTopology e r servers = .ok t →
      NodeIDsUnique t.Servers ∧ t = ⟨e, r, servers⟩) ∧
    (∀ (e r : Nat) (servers : List (Option Server)) (ds : List (Option DataServer))
      (n : Nat) (bt : BucketTopology), NewBucketTopology e r servers ds n = .ok bt →
      NodeIDsUnique bt.Servers ∧ PartitionsCoveredOnce bt.DataServers n ∧
        bt = ⟨e, r, servers, ds⟩) ∧
    (∀ (e r : Nat) (servers : List (Option Server)),
      NodeIDsUnique servers → NewTopology e r servers = .ok ⟨e, r, servers⟩) ∧
    (∀ (e r : Nat) (servers : List (Option Server)) (ds : List (Option DataServer))
      (n : Nat), NodeIDsUnique servers →
      (allVbuckets ds).Perm ((List.range n).map Int.ofNat) →
      NewBucketTopology e r servers ds n = .ok ⟨e, r, servers, ds⟩) := by
  refine ⟨?_, ?_, ?_, ?_, ?_, ?_, ?_⟩
  · intro e r servers h
    unfold NewTopology
    rw [if_pos ((hasDuplicateNodeID_iff _).2 h)]
  · intro e r servers ds n h
    unfold NewBucketTopology
    rw [if_pos ((hasDuplicateNodeID_iff _).2 h)]
  · intro e r servers ds n p hp ho
    have hc : partitionsCovered ds n = false := by
      cases hcov : partitionsCovered ds n with
      | false => rfl
      | true => exact absurd (primaryOwners_of_covered ds n hcov p hp) ho
    unfold NewBucketTopology
    split
    · rfl
    · rw [hc]
      rfl
  · intro e r servers t h
    unfold NewTopology at h
    split at h
    · cases h
    · rename_i hd
      cases h
      exact ⟨(not_hasDuplicateNodeID_iff _).1 (by simpa using hd), rfl⟩
  · intro e r servers ds n bt h
    unfold NewBucketTopology at h
    split at h
    · cases h
    · rename_i hd
      split at h
      · cases h
      · rename_i hc
        cases h
        have hcov : partitionsCovered ds n = true := by
          cases hv : partitionsCovered ds n with
          | true => rfl
          | false => rw [hv] at hc; exact absurd rfl hc
        refine ⟨(not_hasDuplicateNodeID_iff _).1 (by simpa using hd), ?_, rfl⟩
        intro p hp
        exact primaryOwners_of_covered ds n hcov p (List.mem_range.1 hp)
  · intro e r servers h
    unfold NewTopology
    rw [if_neg (by rw [(not_hasDuplicateNodeID_iff _).2 h]; decide)]
  · intro e r servers ds n h hperm
    unfold NewBucketTopology
    rw [if_neg (by rw [(not_hasDuplicateNodeID_iff _).2 h]; decide),
      covered_of_perm ds n hperm]
    rfl

/-- Witness for `NewTopology_validates`: a repeated `NodeID`, a partition with
two owners, and a well-formed bucket of three partitions. -/
theorem NewTopology_validates_witness :
    ¬ NodeIDsUnique duplicateNodeTopology.Servers ∧
    NewTopology 0 0 duplicateNodeTopology.Servers = .error .MalformedTopology ∧
    primaryOwners doubleOwnerBucketTopology.DataServers (Int.ofNat 0) ≠ 1 ∧
    NewBucketTopology 0 0 doubleOwnerBucketTopology.Servers
      doubleOwnerBucketTopology.DataServers 2 = .error .MalformedTopology ∧
    NodeIDsUnique [some sampleServer, some otherServer] ∧
    NewBucketTopology 1 4 [some sampleServer, some otherServer] coveringDataServers 3
      = .ok ⟨1, 4, [some sampleServer, some otherServer], coveringDataServers⟩ :=
  ⟨by decide,
   NewTopology_validates.1 0 0 _ (by decide),
   by decide,
   NewTopology_validates.2.2.1 0 0 _ _ 2 0 (by decide) (by decide),
   by decide,
   NewTopology_validates.2.2.2.2.2.2 1 4 _ coveringDataServers 3 (by decide) (by decide)⟩

end StellarGateway
